import Mathlib

/-!
Verification development for the travel-bot natural-language extraction and
caching core.  The definitions below are a shallow embedding of
`utils/nlp_processor.py` (fuzzy destination resolution and travel-info slot
extraction) and `api/cache.py` (two-tier response cache).  Python strings are
modelled by `String`, Python `re` patterns by a small total backtracking
matcher over an explicit pattern AST, `datetime` dates by a Gregorian `Date`
record, and raising code by `Except String`.
-/

set_option maxRecDepth 10000

namespace TravelBot

/-! ### Generic string helpers -/

/-- Membership of `needle` as a contiguous substring of `hay`
(model of the Python `in` operator on strings). -/
def listContainsSub (hay needle : List Char) : Bool :=
  if needle.isPrefixOf hay then true
  else
    match hay with
    | [] => false
    | _ :: t => listContainsSub t needle

/-- `needle in hay` for `String` (Python substring test). -/
def containsSub (hay needle : String) : Bool :=
  listContainsSub hay.data needle.data

/-- Python `str.lower()` on ASCII text (characterwise lowercasing). -/
def pyLower (s : String) : String :=
  ⟨s.data.map Char.toLower⟩

/-- Python `str.strip()`: remove leading and trailing whitespace. -/
def pyStrip (s : String) : String :=
  ⟨((s.data.dropWhile Char.isWhitespace).reverse.dropWhile Char.isWhitespace).reverse⟩

/-- Python `str.replace(old, new)` on character lists: replace every
non-overlapping occurrence, left to right.  The fuel argument (instantiated
with the length of the subject) only drives structural recursion: every step
consumes at least one character, so it never runs out for the nonempty
patterns the source uses. -/
def replaceAllGo (pat new : List Char) : Nat → List Char → List Char
  | 0, s => s
  | _ + 1, [] => []
  | fuel + 1, c :: t =>
    if pat.isPrefixOf (c :: t) then new ++ replaceAllGo pat new fuel ((c :: t).drop pat.length)
    else c :: replaceAllGo pat new fuel t

/-- `str.replace` on `String`. -/
def pyReplace (s pat new : String) : String :=
  ⟨replaceAllGo pat.data new.data s.data.length s.data⟩

/-- Value of a string of decimal digits (model of Python `int(...)` applied to
a regex capture that matched `\d+`, which is always a digit string). -/
def natOfDigits (s : List Char) : Nat :=
  s.foldl (fun a c => a * 10 + (c.toNat - 48)) 0

/-- Model of Python `str.title()` restricted to its effect on ASCII text:
a letter that follows a non-letter is uppercased, any other letter is
lowercased. -/
def titleCaseGo : Bool → List Char → List Char
  | _, [] => []
  | prevAlpha, c :: t =>
    if c.isAlpha then
      (if prevAlpha then c.toLower else c.toUpper) :: titleCaseGo true t
    else
      c :: titleCaseGo false t

/-- `str.title()`. -/
def titleCase (s : String) : String :=
  ⟨titleCaseGo false s.data⟩

/-! ### A total matcher for the regular expressions used by the source

Every pattern in `nlp_processor.py` is a sequence of: literal text, a
character class repeated with some bounds (greedy or lazy, possibly
capturing), an alternation of literals (possibly capturing, possibly with an
empty branch for `?`), or a terminator group `(?:\s+w1|\s+w2|...|$)`.
`mSeq` enumerates all candidate matches of such a sequence at the head of
the input, in exactly the order a backtracking engine (Python `re`)
explores them, so the head of the returned list corresponds to the match
Python reports.  `reFirst` scans start positions left to right, which
yields the first element of `re.findall`.  In a terminator branch
`\s+w`, the word starts with a non-space character, so the greedy `\s+`
must consume exactly the maximal whitespace run, making the branch
deterministic. -/

/-- Character classes appearing in the source patterns. -/
inductive Cls where
  | alphaSpace  -- `[a-zA-Z\s]`
  | digit       -- `\d`
  | ws          -- `\s`
  deriving Repr

/-- Interpretation of a character class. -/
def clsPred : Cls → Char → Bool
  | .alphaSpace, c => c.isAlpha || c.isWhitespace
  | .digit, c => c.isDigit
  | .ws, c => c.isWhitespace

/-- One element of a source pattern: literal text; a class repeated between
`min` and `max` times (`none` = unbounded), lazy flag, capture flag; an
alternation of literal branches (capture flag); or a terminator group
listing its words (with the implicit final `$` branch). -/
inductive RE where
  | lit : List Char → RE
  | cls : Cls → Nat → Option Nat → Bool → Bool → RE
  | litAlt : List (List Char) → Bool → RE
  | term : List (List Char) → RE

/-- Length of the maximal prefix of `s` whose characters satisfy `p`. -/
def maxRun (p : Char → Bool) : List Char → Nat
  | [] => 0
  | c :: t => if p c then maxRun p t + 1 else 0

/-- Candidate repetition counts from `mn` to `hi`, shortest first. -/
def lensUp (mn hi : Nat) : List Nat :=
  (List.range (hi + 1 - mn)).map (mn + ·)

/-- Candidate repetition counts from `mn` to `hi`, longest first. -/
def lensDown (mn hi : Nat) : List Nat :=
  (lensUp mn hi).reverse

/-- Captured groups, in order of appearance. -/
abbrev Caps := List (List Char)

/-- All ways one pattern element can match a prefix of `s`:
`(captures, rest)` pairs in backtracking priority order. -/
def mOne : RE → List Char → List (Caps × List Char)
  | .lit l, s => if l.isPrefixOf s then [([], s.drop l.length)] else []
  | .cls c mn mx lazy capd, s =>
    let run := maxRun (clsPred c) s
    let hi := match mx with | none => run | some m => min m run
    if hi < mn then []
    else
      (if lazy then lensUp mn hi else lensDown mn hi).map
        (fun n => ((if capd then [s.take n] else []), s.drop n))
  | .litAlt brs capd, s =>
    brs.filterMap
      (fun b =>
        if b.isPrefixOf s then
          some ((if capd then [b] else []), s.drop b.length)
        else none)
  | .term ws, s =>
    let r := maxRun (clsPred .ws) s
    (ws.filterMap
      (fun w =>
        if 1 ≤ r && w.isPrefixOf (s.drop r) then
          some (([] : Caps), s.drop (r + w.length))
        else none))
      ++ (if s.isEmpty then [(([] : Caps), s)] else [])

/-- Candidates of a sequence of pattern elements. -/
def mSeq : List RE → List Char → List (Caps × List Char)
  | [], s => [([], s)]
  | re :: rest, s =>
    (mOne re s).flatMap
      (fun p => (mSeq rest p.2).map (fun q => (p.1 ++ q.1, q.2)))

/-- First match of a pattern in `s` scanning start positions left to right:
the tuple of captured groups of the first element of Python
`re.findall(pattern, s)`. -/
def reFirst (pat : List RE) : List Char → Option Caps
  | [] =>
    match mSeq pat [] with
    | p :: _ => some p.1
    | [] => none
  | c :: t =>
    match mSeq pat (c :: t) with
    | p :: _ => some p.1
    | [] => reFirst pat t

/-- `reFirst` on a `String`, captures as `String`s. -/
def reFirstStr (pat : List RE) (s : String) : Option (List String) :=
  (reFirst pat s.data).map (·.map (fun l => ⟨l⟩))

/-! Pattern-building shorthands used to transcribe the source regexes. -/

/-- Literal element from a string. -/
def rlit (s : String) : RE := .lit s.data

/-- `\s+` (greedy, not captured). -/
def rws : RE := .cls .ws 1 none false false

/-- `([a-zA-Z\s]+?)` — the lazy capturing location group. -/
def rcapLoc : RE := .cls .alphaSpace 1 none true true

/-- A terminator group `(?:\s+w1|\s+w2|...|$)` from its word list. -/
def rterm (ws : List String) : RE := .term (ws.map (·.data))

/-- `x?` on a literal: alternation of the literal and the empty branch. -/
def ropt (s : String) : RE := .litAlt [s.data, []] false

end TravelBot

namespace TravelBot

/-! ### Gregorian dates (model of `datetime.datetime` restricted to its date
part, plus a flag recording whether `datetime.now()` has a nonzero
time-of-day component, which the source consults when comparing a
constructed midnight datetime against `now`). -/

/-- A calendar date. -/
structure Date where
  year : Nat
  month : Nat
  day : Nat
  deriving DecidableEq, Repr

/-- Gregorian leap-year rule. -/
def isLeap (y : Nat) : Bool :=
  y % 4 == 0 && (y % 100 != 0 || y % 400 == 0)

/-- Number of days of a month. -/
def daysInMonth (y m : Nat) : Nat :=
  if m == 2 then (if isLeap y then 29 else 28)
  else if m == 4 || m == 6 || m == 9 || m == 11 then 30
  else 31

/-- Model of the `datetime(year, month, day)` constructor, which raises
`ValueError` on an invalid component (the day message is the exact CPython
text; the other two are abbreviated). -/
def mkDatetime (y m d : Nat) : Except String Date :=
  if y < 1 || 9999 < y then .error "year is out of range"
  else if m < 1 || 12 < m then .error "month must be in 1..12"
  else if d < 1 || daysInMonth y m < d then .error "day is out of range for month"
  else .ok ⟨y, m, d⟩

/-- The day after `d`. -/
def nextDay (d : Date) : Date :=
  if d.day < daysInMonth d.year d.month then ⟨d.year, d.month, d.day + 1⟩
  else if d.month < 12 then ⟨d.year, d.month + 1, 1⟩
  else ⟨d.year + 1, 1, 1⟩

/-- `d + timedelta(days = n)`. -/
def addDays (d : Date) : Nat → Date
  | 0 => d
  | n + 1 => nextDay (addDays d n)

/-- Days in the months of year `y` strictly before month `m`. -/
def daysBeforeMonth (y m : Nat) : Nat :=
  (List.range (m - 1)).foldl (fun a i => a + daysInMonth y (i + 1)) 0

/-- `datetime.toordinal`: day number in the proleptic Gregorian calendar,
with 0001-01-01 having ordinal 1. -/
def toOrdinal (d : Date) : Nat :=
  (d.year - 1) * 365 + (d.year - 1) / 4 - (d.year - 1) / 100 + (d.year - 1) / 400
    + daysBeforeMonth d.year d.month + d.day

/-- `datetime.weekday()`: Monday = 0 ... Sunday = 6. -/
def weekday (d : Date) : Nat :=
  (toOrdinal d + 6) % 7

/-- Zero-padded decimal rendering. -/
def padNum (w n : Nat) : String :=
  let s := toString n
  String.mk (List.replicate (w - s.length) '0') ++ s

/-- `strftime('%Y-%m-%d')`. -/
def fmtDate (d : Date) : String :=
  padNum 4 d.year ++ "-" ++ padNum 2 d.month ++ "-" ++ padNum 2 d.day

/-- Strict ordering of dates. -/
def dateLt (a b : Date) : Bool :=
  a.year < b.year
    || (a.year == b.year
        && (a.month < b.month || (a.month == b.month && a.day < b.day)))

/-- The current instant: its date, and whether any time of day has elapsed
(so that midnight of the same date compares strictly below it). -/
structure Now where
  date : Date
  afterMidnight : Bool
  deriving DecidableEq, Repr

/-- `datetime(y,m,d) < datetime.now()`: the constructed datetime is at
midnight, `now` may carry a time of day. -/
def dtLtNow (d : Date) (now : Now) : Bool :=
  dateLt d now.date || (d == now.date && now.afterMidnight)

end TravelBot

namespace TravelBot

/-! ### Destination dictionary and fuzzy resolver
(`nlp_processor.find_closest_destination` / `validate_destination`).

`fuzzywuzzy.process.extract(query, choices, limit=3, scorer=fuzz.ratio)`
applies `utils.full_process` to the query and to every choice, scores each
processed pair with `fuzz.ratio`, and returns the top three, stably ordered,
so its first element is the first choice in table order attaining the
maximal score.  `fuzz.ratio` (python-Levenshtein backend) is
`round(100 * (lensum - dist) / lensum)` with the InDel distance
`dist = lensum - 2 * lcs`, i.e. `round(200 * lcs / lensum)`, with Python
banker's rounding, and 0 whenever either processed string is empty. -/

/-- The `KNOWN_DESTINATIONS` alias table, in source (dict-insertion) order. -/
def KNOWN_DESTINATIONS : List (String × String) := [
  ("lagos", "LOS"),
  ("los", "LOS"),
  ("lagos nigeria", "LOS"),
  ("london", "LHR"),
  ("lon", "LHR"),
  ("london uk", "LHR"),
  ("paris", "CDG"),
  ("paris france", "CDG"),
  ("new york", "JFK"),
  ("nyc", "JFK"),
  ("newyork", "JFK"),
  ("new york city", "JFK"),
  ("los angeles", "LAX"),
  ("la", "LAX"),
  ("losangeles", "LAX"),
  ("tokyo", "NRT"),
  ("tokyo japan", "NRT"),
  ("dubai", "DXB"),
  ("dubai uae", "DXB"),
  ("abuja", "ABV"),
  ("abuja nigeria", "ABV"),
  ("port harcourt", "PHC"),
  ("ph", "PHC"),
  ("portharcourt", "PHC"),
  ("accra", "ACC"),
  ("accra ghana", "ACC"),
  ("johannesburg", "JNB"),
  ("joburg", "JNB"),
  ("jnb", "JNB"),
  ("amsterdam", "AMS"),
  ("amsterdam netherlands", "AMS"),
  ("berlin", "BER"),
  ("berlin germany", "BER"),
  ("madrid", "MAD"),
  ("madrid spain", "MAD"),
  ("rome", "FCO"),
  ("rome italy", "FCO"),
  ("istanbul", "IST"),
  ("istanbul turkey", "IST"),
  ("singapore", "SIN"),
  ("singapore city", "SIN"),
  ("hong kong", "HKG"),
  ("hongkong", "HKG"),
  ("bangkok", "BKK"),
  ("bangkok thailand", "BKK"),
  ("sydney", "SYD"),
  ("sydney australia", "SYD"),
  ("melbourne", "MEL"),
  ("melbourne australia", "MEL"),
  ("toronto", "YYZ"),
  ("toronto canada", "YYZ"),
  ("vancouver", "YVR"),
  ("vancouver canada", "YVR"),
  ("chicago", "ORD"),
  ("chicago usa", "ORD"),
  ("miami", "MIA"),
  ("miami usa", "MIA"),
  ("atlanta", "ATL"),
  ("atlanta usa", "ATL"),
  ("boston", "BOS"),
  ("boston usa", "BOS"),
  ("san francisco", "SFO"),
  ("sf", "SFO"),
  ("sanfrancisco", "SFO"),
  ("washington", "IAD"),
  ("dc", "IAD"),
  ("washington dc", "IAD"),
  ("lisbon", "LIS"),
  ("lisbon portugal", "LIS"),
  ("barcelona", "BCN"),
  ("barcelona spain", "BCN"),
  ("munich", "MUC"),
  ("munich germany", "MUC"),
  ("zurich", "ZRH"),
  ("zurich switzerland", "ZRH"),
  ("vienna", "VIE"),
  ("vienna austria", "VIE"),
  ("prague", "PRG"),
  ("prague czech", "PRG"),
  ("athens", "ATH"),
  ("athens greece", "ATH"),
  ("cairo", "CAI"),
  ("cairo egypt", "CAI"),
  ("nairobi", "NBO"),
  ("nairobi kenya", "NBO"),
  ("cape town", "CPT"),
  ("capetown", "CPT"),
  ("casablanca", "CMN"),
  ("casablanca morocco", "CMN"),
  ("addis ababa", "ADD"),
  ("addisababa", "ADD"),
  ("kigali", "KGL"),
  ("kigali rwanda", "KGL"),
  ("dar es salaam", "DAR"),
  ("daressalaam", "DAR"),
  ("manchester", "MAN"),
  ("manchester uk", "MAN"),
  ("edinburgh", "EDI"),
  ("edinburgh uk", "EDI"),
  ("glasgow", "GLA"),
  ("glasgow uk", "GLA"),
  ("frankfurt", "FRA"),
  ("frankfurt germany", "FRA"),
  ("milan", "MXP"),
  ("milan italy", "MXP"),
  ("venice", "VCE"),
  ("venice italy", "VCE"),
  ("dublin", "DUB"),
  ("dublin ireland", "DUB"),
  ("brussels", "BRU"),
  ("brussels belgium", "BRU"),
  ("copenhagen", "CPH"),
  ("copenhagen denmark", "CPH"),
  ("stockholm", "ARN"),
  ("stockholm sweden", "ARN"),
  ("oslo", "OSL"),
  ("oslo norway", "OSL"),
  ("helsinki", "HEL"),
  ("helsinki finland", "HEL"),
  ("moscow", "SVO"),
  ("moscow russia", "SVO"),
  ("warsaw", "WAW"),
  ("warsaw poland", "WAW"),
  ("budapest", "BUD"),
  ("budapest hungary", "BUD"),
  ("bucharest", "OTP"),
  ("bucharest romania", "OTP"),
  ("kuala lumpur", "KUL"),
  ("kl", "KUL"),
  ("kualalumpur", "KUL"),
  ("jakarta", "CGK"),
  ("jakarta indonesia", "CGK"),
  ("manila", "MNL"),
  ("manila philippines", "MNL"),
  ("delhi", "DEL"),
  ("new delhi", "DEL"),
  ("delhi india", "DEL"),
  ("mumbai", "BOM"),
  ("bombay", "BOM"),
  ("mumbai india", "BOM"),
  ("bangalore", "BLR"),
  ("bengaluru", "BLR"),
  ("chennai", "MAA"),
  ("madras", "MAA"),
  ("kolkata", "CCU"),
  ("calcutta", "CCU"),
  ("hyderabad", "HYD"),
  ("hyderabad india", "HYD"),
  ("karachi", "KHI"),
  ("karachi pakistan", "KHI"),
  ("lahore", "LHE"),
  ("lahore pakistan", "LHE"),
  ("dhaka", "DAC"),
  ("dhaka bangladesh", "DAC"),
  ("colombo", "CMB"),
  ("colombo sri lanka", "CMB"),
  ("kathmandu", "KTM"),
  ("kathmandu nepal", "KTM"),
  ("shanghai", "PVG"),
  ("shanghai china", "PVG"),
  ("beijing", "PEK"),
  ("beijing china", "PEK"),
  ("guangzhou", "CAN"),
  ("guangzhou china", "CAN"),
  ("seoul", "ICN"),
  ("seoul korea", "ICN"),
  ("taipei", "TPE"),
  ("taipei taiwan", "TPE"),
  ("hanoi", "HAN"),
  ("hanoi vietnam", "HAN"),
  ("ho chi minh", "SGN"),
  ("saigon", "SGN"),
  ("hochiminh", "SGN"),
  ("phnom penh", "PNH"),
  ("phnompenh", "PNH"),
  ("yangon", "RGN"),
  ("rangoon", "RGN"),
  ("tehran", "IKA"),
  ("tehran iran", "IKA"),
  ("riyadh", "RUH"),
  ("riyadh saudi", "RUH"),
  ("jeddah", "JED"),
  ("jeddah saudi", "JED"),
  ("doha", "DOH"),
  ("doha qatar", "DOH"),
  ("abu dhabi", "AUH"),
  ("abudhabi", "AUH"),
  ("muscat", "MCT"),
  ("muscat oman", "MCT"),
  ("kuwait", "KWI"),
  ("kuwait city", "KWI"),
  ("beirut", "BEY"),
  ("beirut lebanon", "BEY"),
  ("amman", "AMM"),
  ("amman jordan", "AMM"),
  ("tel aviv", "TLV"),
  ("telaviv", "TLV")
]

/-- `fuzzywuzzy.utils.full_process`: replace every character that is not
alphanumeric or an underscore by a space, lowercase, and trim. -/
def fullProcess (s : String) : String :=
  pyStrip (pyLower ⟨s.data.map (fun c => if c.isAlphanum || c == '_' then c else ' ')⟩)

/-- One step of the longest-common-subsequence row recurrence. -/
def lcsNextRow (ca : Char) : List Char → List Nat → Nat → List Nat
  | [], _, _ => []
  | cb :: bs, p0 :: p1 :: ps, cur =>
    let v := if cb == ca then p0 + 1 else max cur p1
    v :: lcsNextRow ca bs (p1 :: ps) v
  | _ :: _, _, _ => []

/-- Length of the longest common subsequence, by dynamic programming. -/
def lcsLen (a b : List Char) : Nat :=
  (a.foldl (fun prev ca => 0 :: lcsNextRow ca b prev 0)
      (List.replicate (b.length + 1) 0)).getLastD 0

/-- Banker's rounding of the rational `p / q` (Python `round`). -/
def roundHalfEven (p q : Nat) : Nat :=
  let d := p / q
  let r := p % q
  if 2 * r < q then d
  else if q < 2 * r then d + 1
  else if d % 2 == 0 then d else d + 1

/-- `fuzz.ratio` on two already-processed strings. -/
def fuzzScore (a b : List Char) : Nat :=
  if a.isEmpty || b.isEmpty then 0
  else roundHalfEven (200 * lcsLen a b) (a.length + b.length)

/-- Score of one table alias against the query, as computed inside
`process.extract` (processor applied to both sides). -/
def processScore (q a : String) : Nat :=
  fuzzScore (fullProcess q).data (fullProcess a).data

/-- The top entry of `process.extract(query, KNOWN_DESTINATIONS.keys(), ...)`
with the subsequent `KNOWN_DESTINATIONS[matched_city]` lookup fused in
(the winning alias is a table key, so the lookup always succeeds and yields
the paired code).  Ties keep the earlier table entry, matching the stable
ordering of `process.extract`.  `none` only for an empty table. -/
def bestMatch (q : String) : Option (String × Nat × String) :=
  KNOWN_DESTINATIONS.foldl
    (fun acc e =>
      let s := processScore q e.1
      match acc with
      | none => some (e.1, s, e.2)
      | some b => if b.2.1 < s then some (e.1, s, e.2) else acc)
    none

/-- Literal key lookup in the alias table (`query in KNOWN_DESTINATIONS`). -/
def lookupKD (q : String) : Option String :=
  KNOWN_DESTINATIONS.lookup q

/-- `find_closest_destination(query)`:
returns `(matched_city, confidence_score, airport_code)`.  The source
rebinds `query = query.lower().strip()` after the emptiness guard; that
local is inlined here. -/
def find_closest_destination (query : String) :
    Option String × Nat × Option String :=
  if query = "" then (none, 0, none)
  else
    match lookupKD (pyStrip (pyLower query)) with
    | some code => (some (pyStrip (pyLower query)), 100, some code)
    | none =>
      match bestMatch (pyStrip (pyLower query)) with
      | some b => if 70 ≤ b.2.1 then (some b.1, b.2.1, some b.2.2) else (none, 0, none)
      | none => (none, 0, none)

/-- `validate_destination(destination)`:
returns `(is_valid, airport_code, suggestion)`. -/
def validate_destination (destination : String) :
    Bool × Option String × Option String :=
  if destination = "" then (false, none, none)
  else
    if 90 ≤ (find_closest_destination destination).2.1 then
      (true, (find_closest_destination destination).2.2, none)
    else if 70 ≤ (find_closest_destination destination).2.1 then
      (false, (find_closest_destination destination).2.2,
       (find_closest_destination destination).1)
    else (false, none, none)

end TravelBot

namespace TravelBot

/-! ### Slot extractor (`nlp_processor.extract_travel_info` and helpers) -/

/-- The noise phrases stripped before location extraction, in source order. -/
def noise_words : List String :=
  ["cheap", "expensive", "direct", "nonstop", "return", "round trip",
   "one way", "business class", "economy", "first class"]

/-- `text.replace(word, '')` for every noise word
(Python `str.replace` removes all occurrences, left to right). -/
def removeNoise (t : String) : String :=
  noise_words.foldl (fun s w => pyReplace s w "") t

/-- The flight-flavoured terminator
`(?:\s+from|\s+on|\s+for|\s+tomorrow|\s+today|$)`. -/
def locTermFlight : RE := rterm ["from", "on", "for", "tomorrow", "today"]

/-- The eight location patterns of `extract_locations_enhanced`,
in source order. -/
def locPatterns : List (List RE) :=
  [[rlit "from", rws, rcapLoc, rws, rlit "to", rws, rcapLoc,
      rterm ["on", "for", "in", "at"]],
   [rlit "flight", ropt "s", rws, rlit "to", rws, rcapLoc, locTermFlight],
   [rlit "fly", rws, rlit "to", rws, rcapLoc, locTermFlight],
   [rlit "hotel", ropt "s", rws, rlit "in", rws, rcapLoc,
      rterm ["for", "on", "from"]],
   [rlit "stay", rws, rlit "in", rws, rcapLoc, rterm ["for", "on"]],
   [rlit "accommodation", rws, rlit "in", rws, rcapLoc, rterm ["for", "on"]],
   [rlit "to", rws, rcapLoc, locTermFlight],
   [rlit "in", rws, rcapLoc, rterm ["for", "on"]]]

/-- Captures of the first pattern in the list that matches somewhere in `t`
(the loop body runs for the first pattern with `matches` nonempty, then
breaks). -/
def firstPatternCaps : List (List RE) → String → Option (List String)
  | [], _ => none
  | p :: ps, t =>
    match reFirstStr p t with
    | some caps => some caps
    | none => firstPatternCaps ps t

/-- The small stop-word list of `extract_locations_enhanced`. -/
def locStopWords : List String := ["a", "the", "and", "or", "be"]

/-- Order-preserving first-occurrence deduplication. -/
def dedupFirst (seen : List String) : List String → List String
  | [] => []
  | x :: t =>
    if seen.contains x then dedupFirst seen t
    else x :: dedupFirst (x :: seen) t

/-- `extract_locations_enhanced(text)`. -/
def extract_locations_enhanced (text : String) : List String :=
  let t := removeNoise text
  match firstPatternCaps locPatterns t with
  | some caps =>
    dedupFirst []
      (((caps.map pyStrip).filter
          (fun c => 2 < c.length && !(locStopWords.contains c))).map pyLower)
  | none => []

/-- `day_mapping` in source (dict-insertion) order. -/
def day_mapping : List (String × Nat) :=
  [("monday", 0), ("tuesday", 1), ("wednesday", 2), ("thursday", 3),
   ("friday", 4), ("saturday", 5), ("sunday", 6)]

/-- First weekday name occurring as a substring of `t`, in mapping order. -/
def firstDayName (t : String) : Option Nat :=
  (day_mapping.find? (fun e => containsSub t e.1)).map (·.2)

/-- `month_mapping` (the `'may'` key is written twice in the source literal;
the dict keeps a single entry with value 5, and a first-hit list lookup
agrees). -/
def month_mapping : List (String × Nat) :=
  [("january", 1), ("february", 2), ("march", 3), ("april", 4), ("may", 5),
   ("june", 6), ("july", 7), ("august", 8), ("september", 9), ("october", 10),
   ("november", 11), ("december", 12),
   ("jan", 1), ("feb", 2), ("mar", 3), ("apr", 4), ("may", 5), ("jun", 6),
   ("jul", 7), ("aug", 8), ("sep", 9), ("oct", 10), ("nov", 11), ("dec", 12)]

/-- The month-name alternation, in the exact order of the source regex
(full names, then abbreviations, `may` appearing twice). -/
def monthsAlt : List String :=
  ["january", "february", "march", "april", "may", "june", "july", "august",
   "september", "october", "november", "december",
   "jan", "feb", "mar", "apr", "may", "jun", "jul", "aug", "sep", "oct",
   "nov", "dec"]

/-- `(\d+)` — the greedy capturing digit group. -/
def rdcap : RE := .cls .digit 1 none false true

/-- `(\d{1,2})` capturing, greedy. -/
def rd12 : RE := .cls .digit 1 (some 2) false true

/-- `(?:st|nd|rd|th)?`. -/
def rordSuffix : RE :=
  .litAlt ["st".data, "nd".data, "rd".data, "th".data, []] false

/-- The one-character class of a dash or a forward slash. -/
def rdash : RE := .litAlt ["-".data, "/".data] false

/-- The three `date_patterns` of `extract_date_simple`, in source order. -/
def datePatterns : List (List RE) :=
  [[rd12, rordSuffix, rws, rlit "of", rws,
      RE.litAlt (monthsAlt.map (·.data)) true],
   [RE.litAlt (monthsAlt.map (·.data)) true, rws, rd12, rordSuffix],
   [.cls .digit 4 (some 4) false true, rdash, rd12, rdash, rd12]]

/-- Python `str.isdigit()` (nonempty, all digits) on ASCII text. -/
def isDigitStr (s : String) : Bool :=
  !s.isEmpty && s.data.all (·.isDigit)

/-- Python `str.isalpha()` on ASCII text. -/
def isAlphaStr (s : String) : Bool :=
  !s.isEmpty && s.data.all (·.isAlpha)

/-- The `for pattern in date_patterns` loop body of `extract_date_simple`:
`some` when some pattern returns, `none` when the loop falls through.
A two-group match builds `datetime(current_year, month, day)` (which can
raise), rolling to the next year when the date already passed; a
three-group ISO match is formatted without validation. -/
def tryDatePatterns (now : Now) : List (List RE) → String → Option (Except String String)
  | [], _ => none
  | p :: ps, t =>
    match reFirstStr p t with
    | some caps =>
      if caps.length == 2 then
        let g0 := caps.getD 0 ""
        let g1 := caps.getD 1 ""
        let day := if isDigitStr g0 && isAlphaStr g1 then natOfDigits g0.data
                   else natOfDigits g1.data
        let monthName := if isDigitStr g0 && isAlphaStr g1 then pyLower g1
                         else pyLower g0
        match month_mapping.lookup monthName with
        | some month =>
          some (do
            let td ← mkDatetime now.date.year month day
            if dtLtNow td now then
              let td2 ← mkDatetime (now.date.year + 1) month day
              return fmtDate td2
            else
              return fmtDate td)
        | none => tryDatePatterns now ps t
      else if caps.length == 3 && isDigitStr (caps.getD 0 "")
          && (caps.getD 0 "").length == 4 then
        some (.ok (padNum 4 (natOfDigits (caps.getD 0 "").data) ++ "-"
          ++ padNum 2 (natOfDigits (caps.getD 1 "").data) ++ "-"
          ++ padNum 2 (natOfDigits (caps.getD 2 "").data)))
      else
        tryDatePatterns now ps t
    | none => tryDatePatterns now ps t

/-- `extract_date_simple(text)`: always produces a date string unless the
`datetime` constructor raises, in which case the exception propagates. -/
def extract_date_simple (now : Now) (text : String) : Except String String :=
  if containsSub text "tomorrow" then .ok (fmtDate (addDays now.date 1))
  else if containsSub text "next week" then .ok (fmtDate (addDays now.date 7))
  else if containsSub text "today" then .ok (fmtDate now.date)
  else
    match firstDayName text with
    | some dnum =>
      let ahead0 := (dnum + 7 - weekday now.date) % 7
      let ahead := if ahead0 == 0 then 7 else ahead0
      .ok (fmtDate (addDays now.date ahead))
    | none =>
      match tryDatePatterns now datePatterns text with
      | some r => r
      | none => .ok (fmtDate (addDays now.date 1))

/-- Result of `extract_dates`: the `date` slot is always set (the simple
extractor always falls back to tomorrow); the hotel slots are optional. -/
structure DateInfo where
  date : String
  check_in : Option String
  check_out : Option String
  deriving DecidableEq, Repr

/-- The four `duration_patterns`, in source order. -/
def durationPatterns : List (List RE) :=
  [[rlit "for", rws, rdcap, rws, rlit "night"],
   [rlit "for", rws, rdcap, rws, rlit "days"],
   [rdcap, rws, rlit "night"],
   [rdcap, rws, rlit "day"]]

/-- First pattern of the list that matches: value of its (single) digit
capture (`int(matches[0])`). -/
def firstCapCount : List (List RE) → String → Option Nat
  | [], _ => none
  | p :: ps, t =>
    match reFirstStr p t with
    | some caps => some (natOfDigits (caps.getD 0 "").data)
    | none => firstCapCount ps t

/-- `extract_dates(text)`. -/
def extract_dates (now : Now) (text : String) : Except String DateInfo := do
  let d ← extract_date_simple now text
  if containsSub (pyLower text) "hotel" || containsSub (pyLower text) "stay" then
    let ci := fmtDate (addDays now.date 1)
    match firstCapCount durationPatterns text with
    | some nights =>
      return ⟨d, some ci, some (fmtDate (addDays now.date (1 + nights)))⟩
    | none =>
      return ⟨d, some ci, some (fmtDate (addDays now.date 3))⟩
  else
    return ⟨d, none, none⟩

/-- The six `guest_patterns`, in source order. -/
def guestPatterns : List (List RE) :=
  [[rlit "for", rws, rdcap, rws, rlit "guest"],
   [rlit "for", rws, rdcap, rws, rlit "people"],
   [rlit "for", rws, rdcap, rws, rlit "person"],
   [rdcap, rws, rlit "guest"],
   [rdcap, rws, rlit "people"],
   [rdcap, rws, rlit "person"]]

/-- The two `room_patterns`, in source order. -/
def roomPatterns : List (List RE) :=
  [[rdcap, rws, rlit "room"],
   [rlit "for", rws, rdcap, rws, rlit "room"]]

/-- `extract_guests_rooms(text)`: `(guests, rooms)`, default `(1, 1)`. -/
def extract_guests_rooms (text : String) : Nat × Nat :=
  ((firstCapCount guestPatterns text).getD 1,
   (firstCapCount roomPatterns text).getD 1)

/-- The structured outcome of processing one message
(the `result` dict of `extract_travel_info`). -/
structure ExtractionResult where
  intent : String
  destination : Option String
  origin : Option String
  date : Option String
  check_in : Option String
  check_out : Option String
  budget : Option Nat
  destination_code : Option String
  origin_code : Option String
  guests : Nat
  rooms : Nat
  error : Option String
  suggestion : Option String
  confidence : Nat
  deriving DecidableEq, Repr

/-- The default `result` dict built at the top of `extract_travel_info`. -/
def initResult : ExtractionResult :=
  { intent := "unknown"
    destination := none
    origin := none
    date := none
    check_in := none
    check_out := none
    budget := none
    destination_code := none
    origin_code := none
    guests := 1
    rooms := 1
    error := none
    suggestion := none
    confidence := 100 }

instance : Inhabited ExtractionResult := ⟨initResult⟩

/-- `flight_keywords` from the source. -/
def flight_keywords : List String :=
  ["flight", "fly", "airline", "airport", "ticket", "book flight", "flights"]

/-- `hotel_keywords` from the source. -/
def hotel_keywords : List String :=
  ["hotel", "stay", "accommodation", "lodging", "room", "book hotel", "hostel"]

/-- The keyword-based intent classification at the top of
`extract_travel_info`. -/
def detectIntent (t : String) : String :=
  if flight_keywords.any (containsSub t) then "flight"
  else if hotel_keywords.any (containsSub t) then "hotel"
  else if ["to ", "from "].any (containsSub t) then "flight"
  else "unknown"

/-- The origin-validation block of the two-location flight case: a valid
origin fills the slots, a suggestion substitutes the suggested alias and
lowers confidence, an unresolved origin leaves the result unchanged (no
error).  `validate_destination` is pure, so calling it once per projection
is equivalent to the source binding its tuple once. -/
def assignOrigin (r : ExtractionResult) (l0 : String) : ExtractionResult :=
  if (validate_destination l0).1 then
    { r with origin := some l0, origin_code := (validate_destination l0).2.1 }
  else
    match (validate_destination l0).2.2 with
    | some s =>
      { r with
        origin := some s
        origin_code := (validate_destination l0).2.1
        suggestion := some ("Did you mean " ++ titleCase s ++ "?")
        confidence := 80 }
    | none => r

/-- The destination-validation block of the two-location flight case: an
unresolved destination sets the error and forces the intent to unknown. -/
def assignDest (r : ExtractionResult) (l1 : String) : ExtractionResult :=
  if (validate_destination l1).1 then
    { r with destination := some l1, destination_code := (validate_destination l1).2.1 }
  else
    match (validate_destination l1).2.2 with
    | some s =>
      { r with
        destination := some s
        destination_code := (validate_destination l1).2.1
        suggestion := some ("Did you mean " ++ titleCase s ++ "?")
        confidence := 80 }
    | none =>
      { r with
        error := some ("I don't recognize '" ++ l1 ++ "'. Try a major city like London, Paris, or Dubai.")
        intent := "unknown" }

/-- The single-location flight case: the candidate is the destination, the
origin defaults to Lagos. -/
def assignSingleFlight (r : ExtractionResult) (l0 : String) : ExtractionResult :=
  if (validate_destination l0).1 then
    { r with
      origin := some "Lagos"
      origin_code := some "LOS"
      destination := some l0
      destination_code := (validate_destination l0).2.1 }
  else
    match (validate_destination l0).2.2 with
    | some s =>
      { r with
        origin := some "Lagos"
        origin_code := some "LOS"
        destination := some s
        destination_code := (validate_destination l0).2.1
        suggestion := some ("Did you mean " ++ titleCase s ++ "?")
        confidence := 80 }
    | none =>
      { r with
        error := some ("I don't recognize '" ++ l0 ++ "'. Try cities like:\n• London\n• Paris\n• Dubai\n• New York")
        intent := "unknown" }

/-- The hotel (and unknown-intent) location case: the first candidate is the
stay city; the airport-code slots are not filled here. -/
def assignHotel (r : ExtractionResult) (l0 : String) : ExtractionResult :=
  if (validate_destination l0).1 || (validate_destination l0).2.2.isSome then
    match (validate_destination l0).2.2 with
    | some s =>
      { r with
        destination := some s
        suggestion := some ("Did you mean " ++ titleCase s ++ "?")
        confidence := 80 }
    | none => { r with destination := some l0 }
  else
    { r with
      error := some ("I don't recognize '" ++ l0 ++ "' as a city.")
      intent := "unknown" }

/-- The location-processing block of `extract_travel_info`: validates the
extracted candidates and fills the origin/destination slots, the suggestion
and the error according to the intent. -/
def assignLocations (r : ExtractionResult) (locs : List String) : ExtractionResult :=
  match locs with
  | [] =>
    if r.intent == "flight" then
      { r with error := some "Where would you like to fly to? Example: 'Flights to London'" }
    else if r.intent == "hotel" then
      { r with error := some "Which city do you need a hotel in? Example: 'Hotels in Paris'" }
    else r
  | l0 :: rest =>
    if r.intent == "flight" then
      match rest with
      | l1 :: _ => assignDest (assignOrigin r l0) l1
      | [] => assignSingleFlight r l0
    else assignHotel r l0

/-- The pure first half of `extract_travel_info`: normalization, keyword
intent classification, location extraction and the location-processing
block. -/
def extractBase (text : String) : ExtractionResult :=
  assignLocations
    { initResult with intent := detectIntent (pyStrip (pyLower text)) }
    (extract_locations_enhanced (pyStrip (pyLower text)))

/-- `extract_travel_info(text)`.  The date-extraction step is the only one
that can raise (through the `datetime` constructor): when it does, the
exception propagates out of the call and no result dict is produced, so
the (pure) intent/location processing that Python performs before the date
step has no observable effect and the failing case is factored out first
here.  On success the date, party-size and room counts overwrite the
corresponding fields of the location-processed result, as the source's
`result.update(...)` calls do. -/
def extract_travel_info (now : Now) (text : String) : Except String ExtractionResult :=
  match extract_dates now (pyStrip (pyLower text)) with
  | .error e => .error e
  | .ok di =>
    .ok { extractBase text with
          date := some di.date
          check_in := di.check_in
          check_out := di.check_out
          guests := (extract_guests_rooms (pyStrip (pyLower text))).1
          rooms := (extract_guests_rooms (pyStrip (pyLower text))).2 }

end TravelBot

namespace TravelBot

/-! ### Two-tier response cache (`api/cache.py`, class `CacheManager`)

State model: the in-memory dict (tier 1) is an association list with
distinct keys, the durable `api_cache` table (tier 2) a list of rows whose
`cache_key` column is the primary key.  Payloads pass through a JSON
round trip (`set_response_data` / `get_response_data`), modelled as storing
the serialized payload string itself.  The clock is a `Nat` counting
minutes, so `put` computes `expires_at = now + TTL(category)`.  Durable
operations run inside `try/except` blocks: a `dbOk = false` argument models
the session raising at the start of the block, after which the `except` arm
rolls the session back — the committed table is left unchanged — and the
operation returns its fallback value. -/

/-- One search parameter: its key and its JSON-serialized atomic value. -/
abbrev Param := String × String

/-- Lexicographic comparison of character lists: the ordering Python uses
to sort string keys (code-point order). -/
def charListLe : List Char → List Char → Bool
  | [], _ => true
  | _ :: _, [] => false
  | x :: xs, y :: ys =>
    if x.toNat < y.toNat then true
    else if y.toNat < x.toNat then false
    else charListLe xs ys

/-- `charListLe` on strings. -/
def strLe (a b : String) : Bool := charListLe a.data b.data

/-- Insertion sort of the parameter list by key: the `sort_keys=True`
canonicalization of `json.dumps`.  A Python dict never holds duplicate
keys, and on duplicate-free key lists every comparison sort agrees. -/
def insertParam (e : Param) : List Param → List Param
  | [] => [e]
  | f :: t => if strLe e.1 f.1 then e :: f :: t else f :: insertParam e t

/-- Sort a parameter list by key. -/
def sortParams : List Param → List Param
  | [] => []
  | e :: t => insertParam e (sortParams t)

/-- A hexadecimal digit character. -/
def hexDigit (n : Nat) : Char :=
  if n < 10 then Char.ofNat (48 + n) else Char.ofNat (87 + n)

/-- Model of `hashlib.md5(...).hexdigest()`: the development only relies on
the digest being a deterministic function of its input string, so the
digest is modelled as the hexadecimal encoding of the input bytes. -/
def hexDigest (s : String) : String :=
  ⟨s.data.flatMap (fun c => [hexDigit (c.toNat / 16 % 16), hexDigit (c.toNat % 16)])⟩

/-- `json.dumps(params, sort_keys=True)`.  The exact JSON punctuation is
irrelevant downstream (the string is immediately hashed), so the rendering
is kept minimal. -/
def serializeParams (ps : List Param) : String :=
  String.intercalate "," ((sortParams ps).map (fun e => e.1 ++ ":" ++ e.2))

/-- `_generate_cache_key(provider, params)`. -/
def _generate_cache_key (provider : String) (params : List Param) : String :=
  provider ++ ":" ++ hexDigest (serializeParams params)

/-- The per-category TTL table `cache_ttl` (minutes). -/
def cache_ttl : List (String × Nat) :=
  [("flight", 60), ("hotel", 120), ("airport", 10080), ("token", 25)]

/-- `self.cache_ttl.get(cache_type, 60)`. -/
def ttlOf (cache_type : String) : Nat :=
  (cache_ttl.lookup cache_type).getD 60

/-- A tier-1 (memory) entry: the dict `{'data': ..., 'expires_at': ...}`. -/
structure MemEntry where
  data : String
  expires_at : Nat
  deriving DecidableEq, Repr

/-- A row of the durable `api_cache` table. -/
structure DbRow where
  cache_key : String
  provider : String
  response_data : String
  expires_at : Nat
  deriving DecidableEq, Repr

/-- The mutable state of a `CacheManager`: the memory dict and the
committed durable table. -/
structure CacheState where
  mem : List (String × MemEntry)
  db : List DbRow
  deriving DecidableEq, Repr

/-- First row with the given key:
`self.db.query(APICache).filter(APICache.cache_key == key).first()`. -/
def dbFind (db : List DbRow) (key : String) : Option DbRow :=
  db.find? (fun r => r.cache_key == key)

/-- Update the first row with the key in place (keeping its stored
provider, as the source only assigns `response_data` and `expires_at`), or
append a freshly constructed row. -/
def dbUpsert (db : List DbRow) (key provider data : String) (exp : Nat) : List DbRow :=
  match db with
  | [] => [⟨key, provider, data, exp⟩]
  | r :: t =>
    if r.cache_key == key then
      { r with response_data := data, expires_at := exp } :: t
    else r :: dbUpsert t key provider data exp

/-- Delete the first row with the key (`self.db.delete(cache_entry)`). -/
def dbEraseFirst (db : List DbRow) (key : String) : List DbRow :=
  match db with
  | [] => []
  | r :: t => if r.cache_key == key then t else r :: dbEraseFirst t key

/-- Dict lookup in the memory tier. -/
def memLookup (mem : List (String × MemEntry)) (key : String) : Option MemEntry :=
  (mem.find? (fun e => e.1 == key)).map (·.2)

/-- Dict assignment `self._memory_cache[key] = v`. -/
def memUpsert (mem : List (String × MemEntry)) (key : String) (v : MemEntry) :
    List (String × MemEntry) :=
  match mem with
  | [] => [(key, v)]
  | e :: t => if e.1 == key then (key, v) :: t else e :: memUpsert t key v

/-- Dict deletion `del self._memory_cache[key]`. -/
def memErase (mem : List (String × MemEntry)) (key : String) :
    List (String × MemEntry) :=
  match mem with
  | [] => []
  | e :: t => if e.1 == key then t else e :: memErase t key

/-- The durable-tier block of `get_cached_response` (the body of its
`try`, reached whether or not an expired memory entry was evicted first):
a fresh hit is promoted into tier 1, an expired row is deleted and
committed, and on `dbOk = false` the block degrades to a miss with the
durable table unchanged. -/
def getDbPhase (st1 : CacheState) (now : Nat) (key : String) (dbOk : Bool) :
    CacheState × Option String :=
  if dbOk then
    match dbFind st1.db key with
    | some row =>
      if now < row.expires_at then
        ({ st1 with
           mem := memUpsert st1.mem key ⟨row.response_data, row.expires_at⟩ },
         some row.response_data)
      else
        ({ st1 with db := dbEraseFirst st1.db key }, none)
    | none => (st1, none)
  else (st1, none)

/-- `get_cached_response(provider, params)`: tier-1 lookup with eviction of
an expired hit, then the durable tier (`getDbPhase`). -/
def get_cached_response (st : CacheState) (now : Nat) (provider : String)
    (params : List Param) (dbOk : Bool) : CacheState × Option String :=
  match memLookup st.mem (_generate_cache_key provider params) with
  | some e =>
    if now < e.expires_at then (st, some e.data)
    else
      getDbPhase { st with mem := memErase st.mem (_generate_cache_key provider params) }
        now (_generate_cache_key provider params) dbOk
  | none => getDbPhase st now (_generate_cache_key provider params) dbOk

/-- `save_to_cache(provider, params, response_data, cache_type)`: the
memory-tier write happens first inside the `try`; on `dbOk = false` the
durable write raises, the `except` arm rolls the session back (committed
table unchanged) and the call returns `False` — the memory write is not
undone. -/
def save_to_cache (st : CacheState) (now : Nat) (provider : String)
    (params : List Param) (response_data : String) (cache_type : String)
    (dbOk : Bool) : CacheState × Bool :=
  if dbOk then
    ({ mem := memUpsert st.mem (_generate_cache_key provider params)
          ⟨response_data, now + ttlOf cache_type⟩,
       db := dbUpsert st.db (_generate_cache_key provider params) provider
          response_data (now + ttlOf cache_type) }, true)
  else
    ({ mem := memUpsert st.mem (_generate_cache_key provider params)
          ⟨response_data, now + ttlOf cache_type⟩,
       db := st.db }, false)

/-- `cleanup_expired_cache()`: delete every durable row with
`expires_at < now` (returning the count), commit, then prune the memory
tier keeping entries with `expires_at > now`.  On `dbOk = false` the delete
raises before the memory comprehension runs: rollback, return 0, nothing
changes. -/
def cleanup_expired_cache (st : CacheState) (now : Nat) (dbOk : Bool) :
    CacheState × Nat :=
  if dbOk then
    ({ mem := st.mem.filter (fun e => now < e.2.expires_at),
       db := st.db.filter (fun r => !(r.expires_at < now)) },
     (st.db.filter (fun r => r.expires_at < now)).length)
  else (st, 0)

end TravelBot

namespace TravelBot

/-! ### Resolver theorems -/

/-- C9: `validate_destination` is the three-tier wrapper around
`find_closest_destination`: valid exactly at confidence 90 and above (code,
no suggestion), suggestion exactly in the band from 70 below 90 (code and
matched alias), and bare failure below 70. -/
theorem C9_validate_tiers (q : String) :
    ((validate_destination q).1 = true ↔ 90 ≤ (find_closest_destination q).2.1)
    ∧ (90 ≤ (find_closest_destination q).2.1 →
        validate_destination q = (true, (find_closest_destination q).2.2, none))
    ∧ (70 ≤ (find_closest_destination q).2.1 ∧ (find_closest_destination q).2.1 < 90 →
        validate_destination q = (false, (find_closest_destination q).2.2,
          (find_closest_destination q).1))
    ∧ ((find_closest_destination q).2.1 < 70 →
        validate_destination q = (false, none, none)) := by
  by_cases hq : q = ""
  · subst hq; decide
  · unfold validate_destination
    rw [if_neg hq]
    by_cases h90 : 90 ≤ (find_closest_destination q).2.1
    · rw [if_pos h90]
      exact ⟨by simp [h90], fun _ => rfl, by omega, by omega⟩
    · rw [if_neg h90]
      by_cases h70 : 70 ≤ (find_closest_destination q).2.1
      · rw [if_pos h70]
        exact ⟨by simp [h90], by omega, fun _ => rfl, by omega⟩
      · rw [if_neg h70]
        exact ⟨by simp [h90], by omega, by omega, fun _ => rfl⟩

/-- C10: the confidence of `find_closest_destination` is never strictly
between 0 and 70, and it is 0 exactly when both the matched alias and the
airport code are absent. -/
theorem C10_confidence_gap (query : String) :
    (¬ (0 < (find_closest_destination query).2.1
        ∧ (find_closest_destination query).2.1 < 70))
    ∧ ((find_closest_destination query).2.1 = 0 ↔
        ((find_closest_destination query).1 = none
         ∧ (find_closest_destination query).2.2 = none)) := by
  unfold find_closest_destination
  by_cases hq : query = ""
  · rw [if_pos hq]; simp
  · rw [if_neg hq]
    cases hl : lookupKD (pyStrip (pyLower query)) with
    | some code => simp
    | none =>
      cases hb : bestMatch (pyStrip (pyLower query)) with
      | none => simp
      | some b =>
        by_cases h70 : 70 ≤ b.2.1
        · simp only [if_pos h70]
          constructor
          · intro h
            omega
          · constructor
            · intro h
              simp at h
              omega
            · intro h
              simp at h
        · simp [if_neg h70]

end TravelBot

namespace TravelBot

/-- C2 (amended): for a nonempty query whose normalization is not a literal
table key and whose best fuzzy score reaches 90, `find_closest_destination`
returns the best alias and its code with the raw fuzzy score as the
confidence — which need not be 100. -/
theorem C2_amended_high_score (q : String) (b : String × Nat × String)
    (hq : q ≠ "")
    (hkey : lookupKD (pyStrip (pyLower q)) = none)
    (hb : bestMatch (pyStrip (pyLower q)) = some b)
    (h90 : 90 ≤ b.2.1) :
    find_closest_destination q = (some b.1, b.2.1, some b.2.2) := by
  have h70 : 70 ≤ b.2.1 := by omega
  unfold find_closest_destination
  rw [if_neg hq, hkey, hb]
  simp [h70]

/-- C2 counterexample: "londn" is not a table key and its best fuzzy score
is 91, which is at least 90, yet the resolver returns confidence 91 — not
100 as the claim states. -/
theorem C2_counterexample :
    lookupKD "londn" = none
    ∧ bestMatch "londn" = some ("london", 91, "LHR")
    ∧ find_closest_destination "londn" = (some "london", 91, some "LHR")
    ∧ (find_closest_destination "londn").2.1 ≠ 100 := by
  have h3 : find_closest_destination "londn" = (some "london", 91, some "LHR") := by decide
  refine ⟨by decide, by decide, h3, ?_⟩
  rw [h3]
  decide

/-- C2 witness: the amended theorem applied at the concrete query "londn"
with best alias "london", score 91, code "LHR". -/
theorem C2_amended_witness :
    "londn" ≠ ""
    ∧ lookupKD (pyStrip (pyLower "londn")) = none
    ∧ bestMatch (pyStrip (pyLower "londn")) = some ("london", 91, "LHR")
    ∧ 90 ≤ (("london", 91, "LHR") : String × Nat × String).2.1
    ∧ find_closest_destination "londn" = (some "london", 91, some "LHR") :=
  ⟨by decide, by decide, by decide, by decide,
   C2_amended_high_score "londn" ("london", 91, "LHR")
     (by decide) (by decide) (by decide) (by decide)⟩

end TravelBot

namespace TravelBot

/-! ### Association-list lemmas for the cache tiers -/

theorem memLookup_memUpsert_self (m : List (String × MemEntry)) (k : String)
    (v : MemEntry) : memLookup (memUpsert m k v) k = some v := by
  induction m with
  | nil => simp [memUpsert, memLookup]
  | cons e t ih =>
    unfold memUpsert
    by_cases h : e.1 == k
    · rw [if_pos h]
      unfold memLookup
      rw [List.find?_cons_of_pos _ (by simp)]
      rfl
    · rw [if_neg h]
      unfold memLookup at ih ⊢
      rw [List.find?_cons_of_neg _ (by simpa using h)]
      exact ih

theorem mem_keys_memUpsert (m : List (String × MemEntry)) (k : String)
    (v : MemEntry) (x : String) (hx : x ∈ (memUpsert m k v).map Prod.fst) :
    x = k ∨ x ∈ m.map Prod.fst := by
  induction m with
  | nil => simpa [memUpsert] using hx
  | cons e t ih =>
    unfold memUpsert at hx
    by_cases h : e.1 == k
    · rw [if_pos h, List.map_cons, List.mem_cons] at hx
      rcases hx with h1 | h1
      · exact .inl h1
      · exact .inr (by rw [List.map_cons]; exact List.mem_cons_of_mem _ h1)
    · rw [if_neg h, List.map_cons, List.mem_cons] at hx
      rcases hx with h1 | h1
      · exact .inr (by rw [List.map_cons, h1]; exact List.mem_cons_self _ _)
      · rcases ih h1 with h2 | h2
        · exact .inl h2
        · exact .inr (by rw [List.map_cons]; exact List.mem_cons_of_mem _ h2)

theorem nodup_keys_memUpsert (m : List (String × MemEntry)) (k : String)
    (v : MemEntry) (h : (m.map Prod.fst).Nodup) :
    ((memUpsert m k v).map Prod.fst).Nodup := by
  induction m with
  | nil => simp [memUpsert]
  | cons e t ih =>
    rw [List.map_cons] at h
    rcases List.nodup_cons.mp h with ⟨he, ht⟩
    unfold memUpsert
    by_cases hek : e.1 == k
    · rw [if_pos hek, List.map_cons]
      refine List.nodup_cons.mpr ⟨?_, ht⟩
      have hk : k = e.1 := (eq_of_beq hek).symm
      rw [hk]
      exact he
    · rw [if_neg hek, List.map_cons]
      refine List.nodup_cons.mpr ⟨?_, ih ht⟩
      intro hmem
      rcases mem_keys_memUpsert t k v e.1 hmem with h1 | h1
      · exact hek (by simp [h1])
      · exact he h1

theorem memLookup_eq_none (m : List (String × MemEntry)) (k : String)
    (h : k ∉ m.map Prod.fst) : memLookup m k = none := by
  induction m with
  | nil => rfl
  | cons e t ih =>
    rw [List.map_cons, List.mem_cons] at h
    push_neg at h
    unfold memLookup at ih ⊢
    rw [List.find?_cons_of_neg _ (by simp; intro hke; exact h.1 hke.symm)]
    exact ih h.2

theorem memLookup_memErase_self (m : List (String × MemEntry)) (k : String)
    (h : (m.map Prod.fst).Nodup) : memLookup (memErase m k) k = none := by
  induction m with
  | nil => rfl
  | cons e t ih =>
    rw [List.map_cons] at h
    rcases List.nodup_cons.mp h with ⟨he, ht⟩
    unfold memErase
    by_cases hek : e.1 == k
    · rw [if_pos hek]
      exact memLookup_eq_none t k (by rw [show k = e.1 from (eq_of_beq hek).symm]; exact he)
    · rw [if_neg hek]
      unfold memLookup at ih ⊢
      rw [List.find?_cons_of_neg _ (by simpa using hek)]
      exact ih ht

theorem memLookup_filter (m : List (String × MemEntry)) (q : MemEntry → Bool)
    (k : String) (h : (m.map Prod.fst).Nodup) :
    memLookup (m.filter (fun e => q e.2)) k = Option.filter q (memLookup m k) := by
  induction m with
  | nil => rfl
  | cons e t ih =>
    rw [List.map_cons] at h
    rcases List.nodup_cons.mp h with ⟨he, ht⟩
    by_cases hek : e.1 == k
    · by_cases hq : q e.2
      · rw [List.filter_cons_of_pos (by simpa using hq)]
        unfold memLookup
        rw [List.find?_cons_of_pos _ (by exact hek),
            List.find?_cons_of_pos _ (by exact hek)]
        simp [Option.filter, hq]
      · rw [List.filter_cons_of_neg (by simpa using hq)]
        have hnone : memLookup (t.filter (fun e => q e.2)) k = none := by
          apply memLookup_eq_none
          intro hkmem
          rcases List.mem_map.mp hkmem with ⟨e2, he2, hke⟩
          apply he
          rw [show k = e.1 from (eq_of_beq hek).symm] at hke
          exact List.mem_map.mpr ⟨e2, (List.mem_filter.mp he2).1, hke⟩
        rw [hnone]
        unfold memLookup
        rw [List.find?_cons_of_pos _ (by exact hek)]
        simp [Option.filter, hq]
    · by_cases hq : q e.2
      · rw [List.filter_cons_of_pos (by simpa using hq)]
        unfold memLookup at ih ⊢
        rw [List.find?_cons_of_neg _ (by simpa using hek),
            List.find?_cons_of_neg _ (by simpa using hek)]
        exact ih ht
      · rw [List.filter_cons_of_neg (by simpa using hq)]
        unfold memLookup at ih ⊢
        rw [List.find?_cons_of_neg _ (by simpa using hek)]
        exact ih ht

theorem dbFind_dbUpsert_self (db : List DbRow) (k p d : String) (x : Nat) :
    (dbFind (dbUpsert db k p d x) k).map
        (fun r => (r.cache_key, r.response_data, r.expires_at))
      = some (k, d, x) := by
  induction db with
  | nil => simp [dbUpsert, dbFind]
  | cons r t ih =>
    unfold dbUpsert
    by_cases h : r.cache_key == k
    · rw [if_pos h]
      unfold dbFind
      rw [List.find?_cons_of_pos _ (by simpa using h)]
      simp [eq_of_beq h]
    · rw [if_neg h]
      unfold dbFind at ih ⊢
      rw [List.find?_cons_of_neg _ (by simpa using h)]
      exact ih

theorem mem_keys_dbUpsert (db : List DbRow) (k p d : String) (x : Nat)
    (y : String) (hy : y ∈ (dbUpsert db k p d x).map DbRow.cache_key) :
    y = k ∨ y ∈ db.map DbRow.cache_key := by
  induction db with
  | nil => simpa [dbUpsert] using hy
  | cons r t ih =>
    unfold dbUpsert at hy
    by_cases h : r.cache_key == k
    · rw [if_pos h, List.map_cons, List.mem_cons] at hy
      rcases hy with h1 | h1
      · exact .inl (by rw [h1]; exact eq_of_beq h)
      · exact .inr (by rw [List.map_cons]; exact List.mem_cons_of_mem _ h1)
    · rw [if_neg h, List.map_cons, List.mem_cons] at hy
      rcases hy with h1 | h1
      · exact .inr (by rw [List.map_cons, h1]; exact List.mem_cons_self _ _)
      · rcases ih h1 with h2 | h2
        · exact .inl h2
        · exact .inr (by rw [List.map_cons]; exact List.mem_cons_of_mem _ h2)

theorem nodup_keys_dbUpsert (db : List DbRow) (k p d : String) (x : Nat)
    (h : (db.map DbRow.cache_key).Nodup) :
    ((dbUpsert db k p d x).map DbRow.cache_key).Nodup := by
  induction db with
  | nil => simp [dbUpsert]
  | cons r t ih =>
    rw [List.map_cons] at h
    rcases List.nodup_cons.mp h with ⟨hr, ht⟩
    unfold dbUpsert
    by_cases hrk : r.cache_key == k
    · rw [if_pos hrk, List.map_cons]
      exact List.nodup_cons.mpr ⟨hr, ht⟩
    · rw [if_neg hrk, List.map_cons]
      refine List.nodup_cons.mpr ⟨?_, ih ht⟩
      intro hmem
      rcases mem_keys_dbUpsert t k p d x r.cache_key hmem with h1 | h1
      · exact hrk (by simp [h1])
      · exact hr h1

theorem dbFind_eq_none (db : List DbRow) (k : String)
    (h : k ∉ db.map DbRow.cache_key) : dbFind db k = none := by
  induction db with
  | nil => rfl
  | cons r t ih =>
    rw [List.map_cons, List.mem_cons] at h
    push_neg at h
    unfold dbFind at ih ⊢
    rw [List.find?_cons_of_neg _ (by simp; intro hke; exact h.1 hke.symm)]
    exact ih h.2

theorem dbFind_dbEraseFirst_self (db : List DbRow) (k : String)
    (h : (db.map DbRow.cache_key).Nodup) :
    dbFind (dbEraseFirst db k) k = none := by
  induction db with
  | nil => rfl
  | cons r t ih =>
    rw [List.map_cons] at h
    rcases List.nodup_cons.mp h with ⟨hr, ht⟩
    unfold dbEraseFirst
    by_cases hrk : r.cache_key == k
    · rw [if_pos hrk]
      exact dbFind_eq_none t k
        (by rw [show k = r.cache_key from (eq_of_beq hrk).symm]; exact hr)
    · rw [if_neg hrk]
      unfold dbFind at ih ⊢
      rw [List.find?_cons_of_neg _ (by simpa using hrk)]
      exact ih ht

/-- Every TTL in the category table is positive, as is the default. -/
theorem ttlOf_pos (cat : String) : 0 < ttlOf cat := by
  unfold ttlOf cache_ttl
  unfold List.lookup
  split
  · simp
  · unfold List.lookup
    split
    · simp
    · unfold List.lookup
      split
      · simp
      · unfold List.lookup
        split
        · simp
        · simp

end TravelBot


namespace TravelBot

/-- C4 (amended): `save_to_cache` is atomic with respect to the durable
tier only.  On failure the durable table is unchanged and the call reports
`False`, but the memory tier retains the freshly written entry (a partial
state); on success both tiers hold the key with the same payload and
expiry. -/
theorem C4_amended_put (st : CacheState) (now : Nat) (provider : String)
    (params : List Param) (data cat : String) :
    ((save_to_cache st now provider params data cat false).2 = false
     ∧ (save_to_cache st now provider params data cat false).1.db = st.db
     ∧ memLookup (save_to_cache st now provider params data cat false).1.mem
         (_generate_cache_key provider params)
         = some ⟨data, now + ttlOf cat⟩)
    ∧ ((save_to_cache st now provider params data cat true).2 = true
       ∧ memLookup (save_to_cache st now provider params data cat true).1.mem
           (_generate_cache_key provider params)
           = some ⟨data, now + ttlOf cat⟩
       ∧ (dbFind (save_to_cache st now provider params data cat true).1.db
             (_generate_cache_key provider params)).map
             (fun r => (r.cache_key, r.response_data, r.expires_at))
           = some (_generate_cache_key provider params, data, now + ttlOf cat)) := by
  unfold save_to_cache
  refine ⟨⟨rfl, rfl, memLookup_memUpsert_self _ _ _⟩,
          rfl, memLookup_memUpsert_self _ _ _, dbFind_dbUpsert_self _ _ _ _ _⟩

/-- C4 counterexample: a failing put on the empty state reports `False`
and leaves the durable tier empty, yet the entry is present in the memory
tier — the partial state the claim rules out. -/
theorem C4_counterexample :
    (save_to_cache ⟨[], []⟩ 100 "amadeus_flights" [("o", "LOS")] "PAY" "flight" false).2
        = false
    ∧ (save_to_cache ⟨[], []⟩ 100 "amadeus_flights" [("o", "LOS")] "PAY" "flight" false).1.db
        = []
    ∧ memLookup
        (save_to_cache ⟨[], []⟩ 100 "amadeus_flights" [("o", "LOS")] "PAY" "flight" false).1.mem
        (_generate_cache_key "amadeus_flights" [("o", "LOS")])
        = some ⟨"PAY", 160⟩
    ∧ dbFind
        (save_to_cache ⟨[], []⟩ 100 "amadeus_flights" [("o", "LOS")] "PAY" "flight" false).1.db
        (_generate_cache_key "amadeus_flights" [("o", "LOS")])
        = none := by
  refine ⟨rfl, rfl, by decide, by decide⟩

/-- C7: for every category, after a successful `put` a `get` on the normal
durable path at any time strictly past the stored expiry (`put` time plus
the category TTL from the table, 60 minutes for an unknown category)
returns absent, and afterwards the entry is present in neither tier; in
particular the `token` category carries a TTL of 25 minutes.  The
distinct-keys hypotheses reflect that tier 1 is a dict and `cache_key` is
the primary key of the durable table. -/
theorem C7_put_expiry (st : CacheState) (t1 t2 : Nat) (provider : String)
    (params : List Param) (payload cat : String)
    (hmem : (st.mem.map Prod.fst).Nodup)
    (hdb : (st.db.map DbRow.cache_key).Nodup)
    (ht : t1 + ttlOf cat < t2) :
    ((get_cached_response (save_to_cache st t1 provider params payload cat true).1
        t2 provider params true).2 = none
    ∧ memLookup
        (get_cached_response (save_to_cache st t1 provider params payload cat true).1
            t2 provider params true).1.mem
        (_generate_cache_key provider params) = none
    ∧ dbFind
        (get_cached_response (save_to_cache st t1 provider params payload cat true).1
            t2 provider params true).1.db
        (_generate_cache_key provider params) = none)
    ∧ ttlOf "token" = 25 := by
  have hnotlt : ¬ t2 < t1 + ttlOf cat := by omega
  refine ⟨?_, rfl⟩
  unfold save_to_cache
  rw [if_pos rfl]
  unfold get_cached_response
  simp only [memLookup_memUpsert_self, hnotlt, if_false, ite_false]
  have hfind := dbFind_dbUpsert_self st.db (_generate_cache_key provider params)
      provider payload (t1 + ttlOf cat)
  unfold getDbPhase
  cases hf : dbFind (dbUpsert st.db (_generate_cache_key provider params)
      provider payload (t1 + ttlOf cat)) (_generate_cache_key provider params) with
  | none =>
    rw [hf] at hfind
    simp at hfind
  | some row =>
    rw [hf] at hfind
    simp only [Option.map_some'] at hfind
    have hrow : row.expires_at = t1 + ttlOf cat :=
      congrArg (fun p => p.2.2) (Option.some.inj hfind)
    simp only [hf, hrow, hnotlt, if_false, ite_false, if_true, ite_true]
    refine ⟨trivial, ?_, ?_⟩
    · exact memLookup_memErase_self _ _
        (nodup_keys_memUpsert st.mem _ _ hmem)
    · exact dbFind_dbEraseFirst_self _ _
        (nodup_keys_dbUpsert st.db _ provider payload _ hdb)

/-- C7 witness: the expiry theorem applied to the empty state with a
`token`-category put at time 0 and a get at time 26, one minute past the
25-minute TTL. -/
theorem C7_witness :
    (([] : List (String × MemEntry)).map Prod.fst).Nodup
    ∧ (([] : List DbRow).map DbRow.cache_key).Nodup
    ∧ 0 + ttlOf "token" < 26
    ∧ (((get_cached_response (save_to_cache ⟨[], []⟩ 0 "p" [("a", "1")] "X" "token" true).1
          26 "p" [("a", "1")] true).2 = none
       ∧ memLookup
           (get_cached_response (save_to_cache ⟨[], []⟩ 0 "p" [("a", "1")] "X" "token" true).1
               26 "p" [("a", "1")] true).1.mem
           (_generate_cache_key "p" [("a", "1")]) = none
       ∧ dbFind
           (get_cached_response (save_to_cache ⟨[], []⟩ 0 "p" [("a", "1")] "X" "token" true).1
               26 "p" [("a", "1")] true).1.db
           (_generate_cache_key "p" [("a", "1")]) = none)
       ∧ ttlOf "token" = 25) :=
  ⟨by decide, by decide, by decide,
   C7_put_expiry ⟨[], []⟩ 0 26 "p" [("a", "1")] "X" "token"
     (by decide) (by decide) (by decide)⟩

/-- C8 (amended): `cleanup_expired_cache` keeps exactly the durable rows
with `expires_at` at or past the call time (payloads untouched), returns
the number of durable rows removed, and prunes the memory tier of every
entry with `expires_at` at or before the call time — so a memory entry
expiring exactly at the call time is pruned even though its expiry does
not precede the call. -/
theorem C8_amended_sweep (st : CacheState) (now : Nat)
    (hmem : (st.mem.map Prod.fst).Nodup) :
    (∀ r : DbRow, r ∈ (cleanup_expired_cache st now true).1.db
        ↔ (r ∈ st.db ∧ ¬ r.expires_at < now))
    ∧ (cleanup_expired_cache st now true).2
        = (st.db.filter (fun r => r.expires_at < now)).length
    ∧ (∀ k : String, memLookup (cleanup_expired_cache st now true).1.mem k
        = Option.filter (fun e => now < e.expires_at) (memLookup st.mem k)) := by
  unfold cleanup_expired_cache
  refine ⟨?_, rfl, ?_⟩
  · intro r
    simp [List.mem_filter]
  · intro k
    exact memLookup_filter st.mem (fun e => now < e.expires_at) k hmem

/-- C8 counterexample: a memory entry whose expiry equals the call time —
so its `expires_at` does not precede the call — is nevertheless removed by
the sweep. -/
theorem C8_counterexample :
    ¬ ((5 : Nat) < 5)
    ∧ memLookup ([("k", ⟨"X", 5⟩)] : List (String × MemEntry)) "k" = some ⟨"X", 5⟩
    ∧ memLookup (cleanup_expired_cache ⟨[("k", ⟨"X", 5⟩)], []⟩ 5 true).1.mem "k" = none := by
  refine ⟨by omega, by decide, by decide⟩

/-- C8 witness: the amended sweep theorem applied to a concrete state with
one fresh memory entry and one expired durable row. -/
theorem C8_witness :
    ((([("k", ⟨"X", 9⟩)] : List (String × MemEntry)).map Prod.fst).Nodup)
    ∧ ((∀ r : DbRow, r ∈ (cleanup_expired_cache ⟨[("k", ⟨"X", 9⟩)], [⟨"k2", "p", "Y", 3⟩]⟩ 7 true).1.db
          ↔ (r ∈ ([⟨"k2", "p", "Y", 3⟩] : List DbRow) ∧ ¬ r.expires_at < 7))
       ∧ (cleanup_expired_cache ⟨[("k", ⟨"X", 9⟩)], [⟨"k2", "p", "Y", 3⟩]⟩ 7 true).2
           = (([⟨"k2", "p", "Y", 3⟩] : List DbRow).filter (fun r => r.expires_at < 7)).length
       ∧ (∀ k : String,
           memLookup (cleanup_expired_cache ⟨[("k", ⟨"X", 9⟩)], [⟨"k2", "p", "Y", 3⟩]⟩ 7 true).1.mem k
             = Option.filter (fun e => 7 < e.expires_at)
                 (memLookup [("k", ⟨"X", 9⟩)] k))) :=
  ⟨by decide, C8_amended_sweep ⟨[("k", ⟨"X", 9⟩)], [⟨"k2", "p", "Y", 3⟩]⟩ 7 (by decide)⟩

end TravelBot

namespace TravelBot

/-! ### Canonical ordering lemmas for the parameter sort -/

theorem charListLe_total (a b : List Char) :
    charListLe a b = true ∨ charListLe b a = true := by
  induction a generalizing b with
  | nil => left; rfl
  | cons x xs ih =>
    cases b with
    | nil => right; rfl
    | cons y ys =>
      by_cases h1 : x.toNat < y.toNat
      · left; simp [charListLe, h1]
      · by_cases h2 : y.toNat < x.toNat
        · right; simp [charListLe, h2]
        · have := ih ys
          rcases this with h | h
          · left; simpa [charListLe, h1, h2] using h
          · right; simpa [charListLe, h1, h2] using h

theorem charListLe_antisymm (a b : List Char) (hab : charListLe a b = true)
    (hba : charListLe b a = true) : a = b := by
  induction a generalizing b with
  | nil =>
    cases b with
    | nil => rfl
    | cons y ys => simp [charListLe] at hba
  | cons x xs ih =>
    cases b with
    | nil => simp [charListLe] at hab
    | cons y ys =>
      by_cases h1 : x.toNat < y.toNat
      · simp [charListLe, h1, Nat.lt_asymm h1] at hba
      · by_cases h2 : y.toNat < x.toNat
        · simp [charListLe, h1, h2] at hab
        · have hnat : x.toNat = y.toNat := by omega
          have hxy : x = y := by
            apply Char.ext
            apply UInt32.ext
            exact hnat
          subst hxy
          have hab2 : charListLe xs ys = true := by
            simpa [charListLe, h1, h2] using hab
          have hba2 : charListLe ys xs = true := by
            simpa [charListLe, h1, h2] using hba
          rw [ih ys hab2 hba2]

theorem charListLe_trans (a b c : List Char) (hab : charListLe a b = true)
    (hbc : charListLe b c = true) : charListLe a c = true := by
  induction a generalizing b c with
  | nil => rfl
  | cons x xs ih =>
    cases b with
    | nil => simp [charListLe] at hab
    | cons y ys =>
      cases c with
      | nil => simp [charListLe] at hbc
      | cons z zs =>
        by_cases h2 : y.toNat < z.toNat
        · by_cases h1 : x.toNat < y.toNat
          · simp [charListLe, show x.toNat < z.toNat by omega]
          · by_cases h1b : y.toNat < x.toNat
            · simp [charListLe, h1, h1b] at hab
            · simp [charListLe, show x.toNat < z.toNat by omega]
        · by_cases h3 : z.toNat < y.toNat
          · simp [charListLe, h2, h3] at hbc
          · by_cases h1 : x.toNat < y.toNat
            · simp [charListLe, show x.toNat < z.toNat by omega]
            · by_cases h1b : y.toNat < x.toNat
              · simp [charListLe, h1, h1b] at hab
              · have hab2 : charListLe xs ys = true := by
                  simpa [charListLe, h1, h1b] using hab
                have hbc2 : charListLe ys zs = true := by
                  simpa [charListLe, h2, h3] using hbc
                simp [charListLe, show ¬ x.toNat < z.toNat by omega,
                  show ¬ z.toNat < x.toNat by omega]
                exact ih ys zs hab2 hbc2

theorem insertParam_perm (e : Param) (l : List Param) :
    (insertParam e l).Perm (e :: l) := by
  induction l with
  | nil => exact List.Perm.refl _
  | cons f t ih =>
    unfold insertParam
    by_cases h : strLe e.1 f.1
    · rw [if_pos h]
    · rw [if_neg h]
      exact (ih.cons f).trans (List.Perm.swap e f t)

theorem sortParams_perm (l : List Param) : (sortParams l).Perm l := by
  induction l with
  | nil => exact List.Perm.refl _
  | cons e t ih => exact (insertParam_perm e (sortParams t)).trans (ih.cons e)

theorem insertParam_pairwise (e : Param) (l : List Param)
    (h : l.Pairwise (fun a b => charListLe a.1.data b.1.data = true)) :
    (insertParam e l).Pairwise (fun a b => charListLe a.1.data b.1.data = true) := by
  induction l with
  | nil => simp [insertParam]
  | cons f t ih =>
    rcases List.pairwise_cons.mp h with ⟨hf, ht⟩
    unfold insertParam
    by_cases hef : strLe e.1 f.1
    · rw [if_pos hef]
      refine List.pairwise_cons.mpr ⟨?_, h⟩
      intro b hb
      rcases List.mem_cons.mp hb with rfl | hb
      · exact hef
      · exact charListLe_trans _ _ _ hef (hf b hb)
    · rw [if_neg hef]
      have hfe : charListLe f.1.data e.1.data = true := by
        rcases charListLe_total e.1.data f.1.data with h1 | h1
        · exact absurd h1 (by simpa [strLe] using hef)
        · exact h1
      refine List.pairwise_cons.mpr ⟨?_, ih ht⟩
      intro b hb
      rcases (insertParam_perm e t).mem_iff.mp hb with hb2
      rcases List.mem_cons.mp hb2 with rfl | hb3
      · exact hfe
      · exact hf b hb3

theorem sortParams_pairwise (l : List Param) :
    (sortParams l).Pairwise (fun a b => charListLe a.1.data b.1.data = true) := by
  induction l with
  | nil => simp [sortParams]
  | cons e t ih => exact insertParam_pairwise e (sortParams t) ih

theorem string_eq_of_data (a b : String) (h : a.data = b.data) : a = b := by
  cases a
  cases b
  exact congrArg String.mk h

theorem eq_of_perm_pairwise_nodupkeys (l1 : List Param) :
    ∀ (l2 : List Param), l1.Perm l2
    → l1.Pairwise (fun a b => charListLe a.1.data b.1.data = true)
    → l2.Pairwise (fun a b => charListLe a.1.data b.1.data = true)
    → (l1.map Prod.fst).Nodup → l1 = l2 := by
  induction l1 with
  | nil =>
    intro l2 hperm _ _ _
    exact hperm.nil_eq
  | cons a t1 ih =>
    intro l2 hperm h1 h2 hnd
    cases l2 with
    | nil => exact absurd (List.perm_nil.mp hperm) (by simp)
    | cons b t2 =>
      have hab : a = b := by
        have hamem : a ∈ b :: t2 := hperm.mem_iff.mp (List.mem_cons_self a t1)
        rcases List.mem_cons.mp hamem with h | hat2
        · exact h
        · have hbmem : b ∈ a :: t1 := hperm.symm.mem_iff.mp (List.mem_cons_self b t2)
          rcases List.mem_cons.mp hbmem with h | hbt1
          · exact h.symm
          · have h_ab : charListLe a.1.data b.1.data = true :=
              (List.pairwise_cons.mp h1).1 b hbt1
            have h_ba : charListLe b.1.data a.1.data = true :=
              (List.pairwise_cons.mp h2).1 a hat2
            have hkey : b.1 = a.1 :=
              string_eq_of_data _ _ (charListLe_antisymm _ _ h_ba h_ab)
            have hmem2 : a.1 ∈ t1.map Prod.fst :=
              List.mem_map.mpr ⟨b, hbt1, hkey⟩
            rw [List.map_cons] at hnd
            exact absurd hmem2 (List.nodup_cons.mp hnd).1
      subst hab
      have hperm2 := hperm.cons_inv
      rw [List.map_cons] at hnd
      rw [ih t2 hperm2 (List.pairwise_cons.mp h1).2 (List.pairwise_cons.mp h2).2
        (List.nodup_cons.mp hnd).2]

theorem sortParams_canonical (l1 l2 : List Param) (hperm : l1.Perm l2)
    (hnd : (l1.map Prod.fst).Nodup) : sortParams l1 = sortParams l2 :=
  eq_of_perm_pairwise_nodupkeys (sortParams l1) (sortParams l2)
    ((sortParams_perm l1).trans (hperm.trans (sortParams_perm l2).symm))
    (sortParams_pairwise l1) (sortParams_pairwise l2)
    ((((sortParams_perm l1).map Prod.fst).nodup_iff).mpr hnd)

/-- C6: key derivation is canonical.  For parameter lists holding the same
key-value pairs in any order (with dict-distinct keys), the derived cache
key is identical, and a put under one ordering followed by a get under the
other returns the stored payload. -/
theorem C6_canonical_key (provider : String) (l1 l2 : List Param)
    (hperm : l1.Perm l2) (hnd : (l1.map Prod.fst).Nodup) :
    _generate_cache_key provider l1 = _generate_cache_key provider l2
    ∧ ∀ (st : CacheState) (now : Nat) (data cat : String),
        (get_cached_response (save_to_cache st now provider l1 data cat true).1
            now provider l2 true).2 = some data := by
  have hkey : _generate_cache_key provider l1 = _generate_cache_key provider l2 := by
    unfold _generate_cache_key serializeParams
    rw [sortParams_canonical l1 l2 hperm hnd]
  refine ⟨hkey, ?_⟩
  intro st now data cat
  unfold save_to_cache
  rw [if_pos rfl]
  unfold get_cached_response
  rw [← hkey]
  rw [memLookup_memUpsert_self]
  have hlt : now < now + ttlOf cat := Nat.lt_add_of_pos_right (ttlOf_pos cat)
  simp [hlt]

/-- C6 witness: the canonical-key theorem applied to the concrete
parameter dicts with keys a, b given in both orders. -/
theorem C6_witness :
    (([("a", "1"), ("b", "2")] : List Param).Perm [("b", "2"), ("a", "1")]
     ∧ (([("a", "1"), ("b", "2")] : List Param).map Prod.fst).Nodup)
    ∧ _generate_cache_key "p" [("a", "1"), ("b", "2")]
        = _generate_cache_key "p" [("b", "2"), ("a", "1")]
    ∧ (get_cached_response
          (save_to_cache ⟨[], []⟩ 0 "p" [("a", "1"), ("b", "2")] "X" "flight" true).1
          0 "p" [("b", "2"), ("a", "1")] true).2 = some "X" := by
  have h := C6_canonical_key "p" [("a", "1"), ("b", "2")] [("b", "2"), ("a", "1")]
    (by decide) (by decide)
  exact ⟨⟨by decide, by decide⟩, h.1, h.2 ⟨[], []⟩ 0 "X" "flight"⟩

end TravelBot

namespace TravelBot

/-- A concrete clock used by the concrete-input theorems:
2026-01-15, with some time of day elapsed. -/
def nowA : Now := ⟨⟨2026, 1, 15⟩, true⟩

/-- C3: the claim that `extract` never raises is wrong on the code — the
month-day branch of `extract_date_simple` builds
`datetime(current_year, month, day)` without validation, so the malformed
input "31st of february" raises `ValueError` out of the whole call. -/
theorem C3_extract_raises :
    extract_travel_info nowA "31st of february"
      = .error "day is out of range for month" := by
  rfl

/-- Unfolding equation for the location-processing stage, for use where
`extractBase` is locally irreducible. -/
theorem extractBase_eq (text : String) :
    extractBase text
      = assignLocations
          { initResult with intent := detectIntent (pyStrip (pyLower text)) }
          (extract_locations_enhanced (pyStrip (pyLower text))) := rfl

theorem assignOrigin_frame (r : ExtractionResult) (l0 : String) :
    (assignOrigin r l0).error = r.error ∧ (assignOrigin r l0).intent = r.intent := by
  unfold assignOrigin
  split
  · exact ⟨rfl, rfl⟩
  · split
    · exact ⟨rfl, rfl⟩
    · exact ⟨rfl, rfl⟩

theorem assignDest_cases (r : ExtractionResult) (l1 : String) :
    ((assignDest r l1).error = r.error ∧ (assignDest r l1).intent = r.intent)
    ∨ (assignDest r l1).intent = "unknown" := by
  unfold assignDest
  split
  · exact .inl ⟨rfl, rfl⟩
  · split
    · exact .inl ⟨rfl, rfl⟩
    · exact .inr rfl

theorem assignSingleFlight_cases (r : ExtractionResult) (l0 : String) :
    ((assignSingleFlight r l0).error = r.error
      ∧ (assignSingleFlight r l0).intent = r.intent)
    ∨ (assignSingleFlight r l0).intent = "unknown" := by
  unfold assignSingleFlight
  split
  · exact .inl ⟨rfl, rfl⟩
  · split
    · exact .inl ⟨rfl, rfl⟩
    · exact .inr rfl

theorem assignHotel_cases (r : ExtractionResult) (l0 : String) :
    ((assignHotel r l0).error = r.error ∧ (assignHotel r l0).intent = r.intent)
    ∨ (assignHotel r l0).intent = "unknown" := by
  unfold assignHotel
  split
  · split
    · exact .inl ⟨rfl, rfl⟩
    · exact .inl ⟨rfl, rfl⟩
  · exact .inr rfl

theorem assignLocations_cons (r0 : ExtractionResult) (l0 : String)
    (rest : List String) :
    assignLocations r0 (l0 :: rest)
      = if r0.intent == "flight" then
          (match rest with
           | l1 :: _ => assignDest (assignOrigin r0 l0) l1
           | [] => assignSingleFlight r0 l0)
        else assignHotel r0 l0 := rfl

/-- In the location-processing block, an error is only ever set together
with forcing the intent to unknown — except in the no-candidate branches,
which set the intent-specific prompt and keep the inferred intent. -/
theorem assignLocations_error_unknown (r0 : ExtractionResult) (locs : List String)
    (h0 : r0.error = none)
    (he : (assignLocations r0 locs).error ≠ none) :
    (assignLocations r0 locs).intent = "unknown" ∨ locs = [] := by
  cases locs with
  | nil => exact .inr rfl
  | cons l0 rest =>
    left
    rw [assignLocations_cons] at he ⊢
    by_cases hf : (r0.intent == "flight") = true
    · rw [if_pos hf] at he ⊢
      cases rest with
      | cons l1 t =>
        have he2 : (assignDest (assignOrigin r0 l0) l1).error ≠ none := he
        rcases assignDest_cases (assignOrigin r0 l0) l1 with ⟨herr, _⟩ | hunk
        · rw [herr, (assignOrigin_frame r0 l0).1, h0] at he2
          exact absurd rfl he2
        · exact hunk
      | nil =>
        have he2 : (assignSingleFlight r0 l0).error ≠ none := he
        rcases assignSingleFlight_cases r0 l0 with ⟨herr, _⟩ | hunk
        · rw [herr, h0] at he2
          exact absurd rfl he2
        · exact hunk
    · rw [if_neg hf] at he ⊢
      rcases assignHotel_cases r0 l0 with ⟨herr, _⟩ | hunk
      · rw [herr, h0] at he
        exact absurd rfl he
      · exact hunk

section

attribute [local irreducible] extractBase

/-- C5 (amended): the party-size slots of a successful extraction are the
first matched guest and room counts of the normalized text, each
defaulting to 1 when no pattern matches — the matched count is used
verbatim, so a lower bound of 1 is not guaranteed. -/
theorem C5_amended_party_size (now : Now) (text : String) (r : ExtractionResult)
    (h : extract_travel_info now text = .ok r) :
    r.guests = (firstCapCount guestPatterns (pyStrip (pyLower text))).getD 1
    ∧ r.rooms = (firstCapCount roomPatterns (pyStrip (pyLower text))).getD 1 := by
  unfold extract_travel_info at h
  cases hdi : extract_dates now (pyStrip (pyLower text)) with
  | error e =>
    rw [hdi] at h
    simp at h
  | ok di =>
    rw [hdi] at h
    obtain ⟨ri, rd, ro, rdate, rci, rco, rb, rdc, roc, rg, rr, rerr, rsug, rconf⟩ := r
    simp only [Except.ok.injEq, ExtractionResult.mk.injEq] at h
    obtain ⟨h1, h2, h3, h4, h5, h6, h7, h8, h9, h10, h11, h12, h13, h14⟩ := h
    exact ⟨h10.symm, h11.symm⟩

/-- C1 (amended): whenever a successful extraction carries an error, either
the intent was forced to unknown, or no location candidate was extracted at
all (the prompt branches, which keep the inferred intent). -/
theorem C1_amended_error_intent (now : Now) (text : String) (r : ExtractionResult)
    (h : extract_travel_info now text = .ok r) (he : r.error ≠ none) :
    r.intent = "unknown"
    ∨ extract_locations_enhanced (pyStrip (pyLower text)) = [] := by
  unfold extract_travel_info at h
  cases hdi : extract_dates now (pyStrip (pyLower text)) with
  | error e =>
    rw [hdi] at h
    simp at h
  | ok di =>
    rw [hdi] at h
    obtain ⟨ri, rd, ro, rdate, rci, rco, rb, rdc, roc, rg, rr, rerr, rsug, rconf⟩ := r
    simp only [Except.ok.injEq, ExtractionResult.mk.injEq] at h
    obtain ⟨h1, h2, h3, h4, h5, h6, h7, h8, h9, h10, h11, h12, h13, h14⟩ := h
    have he2 : (extractBase text).error ≠ none := by
      rw [← h12] at he
      exact he
    rw [extractBase_eq] at he2
    rcases assignLocations_error_unknown _ _ rfl he2 with hunk | hnil
    · left
      show ri = "unknown"
      rw [← h1, extractBase_eq]
      exact hunk
    · exact .inr hnil

end

def rC5 : ExtractionResult :=
  (extract_travel_info nowA "hotel for 0 guests").toOption.getD initResult

/-- C5 counterexample: the input "hotel for 0 guests" extracts successfully
with `guests = 0`, violating the claimed lower bound of 1. -/
theorem C5_counterexample :
    extract_travel_info nowA "hotel for 0 guests" = .ok rC5
    ∧ rC5.guests = 0
    ∧ ¬ 1 ≤ rC5.guests := by
  refine ⟨rfl, rfl, by decide⟩

/-- C5 witness: the amended party-size theorem applied at the concrete
input "hotel for 0 guests". -/
theorem C5_witness :
    extract_travel_info nowA "hotel for 0 guests" = .ok rC5
    ∧ (rC5.guests
          = (firstCapCount guestPatterns (pyStrip (pyLower "hotel for 0 guests"))).getD 1
       ∧ rC5.rooms
          = (firstCapCount roomPatterns (pyStrip (pyLower "hotel for 0 guests"))).getD 1) :=
  ⟨rfl, C5_amended_party_size nowA "hotel for 0 guests" rC5 rfl⟩

def rC1 : ExtractionResult :=
  (extract_travel_info nowA "xyz123 flights").toOption.getD initResult

/-- C1 counterexample: on "xyz123 flights" the extractor sets the error and
leaves the destination absent, but the intent stays "flight" — not
"unknown" as the claim requires. -/
theorem C1_counterexample :
    extract_travel_info nowA "xyz123 flights" = .ok rC1
    ∧ rC1.error ≠ none
    ∧ rC1.destination = none
    ∧ rC1.intent = "flight"
    ∧ "flight" ≠ "unknown" := by
  refine ⟨rfl, by decide, rfl, rfl, by decide⟩

def rC1w : ExtractionResult :=
  (extract_travel_info nowA "flights to qqqq").toOption.getD initResult

/-- C1 witness: the amended theorem applied at "flights to qqqq", whose
unresolvable destination sets the error and forces the intent to
unknown. -/
theorem C1_witness :
    extract_travel_info nowA "flights to qqqq" = .ok rC1w
    ∧ rC1w.error ≠ none
    ∧ (rC1w.intent = "unknown"
       ∨ extract_locations_enhanced (pyStrip (pyLower "flights to qqqq")) = []) :=
  ⟨rfl, by decide, C1_amended_error_intent nowA "flights to qqqq" rC1w rfl (by decide)⟩

end TravelBot
